import Mathlib

/-!
# Verification of the mrfy streaming MRF extractor

A shallow embedding of the core of the `mrfy` program (src/asa.rs,
src/query.rs, src/error.rs, src/main.rs): an event-driven streaming
extractor of negotiated-price records from machine-readable files.

The JSON tokenizer is modelled as a finite list of `JsonEvent`s
(`parse_next` = take the head; an exhausted list is a tokenizer error,
exactly the condition under which the Rust parser returns `Err` mid
document).  Every Rust `loop` becomes a recursive Lean function over the
remaining event list.  Loops take an explicit fuel argument as a
termination device; running out of fuel yields the dedicated
`Err.outOfFuel` value, which no theorem ever equates with a real program
behaviour.  Functions that invoke a fueled sub-processor carry a second
`fuel0` argument, the fuel passed unchanged to sub-calls (the fuel of an
enclosing loop is irrelevant to the events a sub-processor consumes).

Rust panics (`panic!`, `expect`, `unwrap`, and u64 subtraction overflow in
debug builds) are modelled as `Err.fatal`; the two `unwrap`s in
`print_record` get the dedicated `Err.unwrapFail` so that their safety is
directly statable.  `error.rs`'s `NonFatalError` is `Err.nonFatal`.

Primary output (the `out : impl Write` sink of `asa::run`) is modelled as
a list of structured `Line`s together with a byte-exact `render` function
mirroring `print_header`, `Network::print_out` and `Price::print_out`;
diagnostics written to stderr (eprintln, progress bar, the
unsupported-keys set) do not influence control flow or `out` and are not
modelled.

Machine integers: the Rust counters typed `i32` are `Int`; those typed
`u64` are `Nat`, with an explicit `Err.fatal` on the decrement of zero
(debug-build subtraction overflow).  `u64` parses are `parseU64`, a
structural model of `str::parse::<u64>` (`String.toNat?` does not reduce
inside the kernel).
-/

namespace Mrfy

/-! ## JSON events (json_event_parser's JsonEvent, §4.A of the spec) -/

inductive JsonEvent where
  | startObject
  | endObject
  | startArray
  | endArray
  | objectKey (k : String)
  | strVal (s : String)
  | numVal (s : String)
  | boolVal (b : Bool)
  | nullVal
  | eof
deriving DecidableEq, Repr

/-! ## Errors -/

inductive Err where
  | fatal (msg : String)
  | nonFatal (msg : String)
  | unwrapFail (site : String)
  | outOfFuel
deriving DecidableEq, Repr

/-! ## Query data model (src/query.rs) -/

structure Code where
  code_type : String
  value : String
  seen : Bool
  recorded : Bool
deriving DecidableEq, Repr

def Code.new (c_type c_value : String) : Code :=
  { code_type := c_type, value := c_value, seen := false, recorded := false }

structure Provider where
  npi : Nat
  group_id : Option Nat
  tin_type : Option String
  tin_value : Option String
  needs_tin : Bool
  needs_gid : Bool
  recorded : Bool
deriving DecidableEq, Repr

def Provider.new (npi_val : Nat) : Provider :=
  { npi := npi_val, group_id := none, tin_type := none, tin_value := none,
    needs_tin := false, needs_gid := false, recorded := false }

structure Query where
  providers : List Provider
  codes : List Code
deriving DecidableEq, Repr

/-- Rust `str::to_ascii_uppercase` / `make_ascii_uppercase`: ASCII
lowercase letters are upcased, every other character is unchanged
(`Char.toUpper` upcases exactly the ASCII lowercase letters). -/
def asciiUpper (s : String) : String :=
  ⟨s.data.map Char.toUpper⟩

/-- Rust `str::to_ascii_lowercase`. -/
def asciiLower (s : String) : String :=
  ⟨s.data.map Char.toLower⟩

/-- Rust `str::eq_ignore_ascii_case`: ASCII letters are case-folded, all
other characters compare exactly. -/
def eqIgnoreAsciiCase (a b : String) : Bool :=
  asciiLower a == asciiLower b

/-- Digit run of `str::parse::<u64>`: fails on any non-digit. -/
def parseDigits : List Char → Nat → Option Nat
  | [], acc => some acc
  | c :: cs, acc => if c.isDigit then parseDigits cs (acc * 10 + (c.toNat - 48)) else none

/-- Rust `str::parse::<u64>`: an optional leading `+`, then at least one
ASCII digit, and the value must fit in 64 bits (overflow is a parse
error, hence an `expect` panic at the call sites). -/
def parseU64 (s : String) : Option Nat :=
  let v? :=
    match s.data with
    | [] => none
    | '+' :: cs => match cs with
      | [] => none
      | _ => parseDigits cs 0
    | cs => parseDigits cs 0
  match v? with
  | some v => if v < 2 ^ 64 then some v else none
  | none => none

/-- `Query::make_npi_set`.  The Rust HashSet is modelled by the list of
npis; only membership (`contains`) is ever consulted, for which
duplicates are irrelevant. -/
def Query.make_npi_set (q : Query) : List Nat :=
  q.providers.map (fun p => p.npi)

/-- `Query::make_code_set`: the ASCII-uppercase of each code value.  As
with the npi set, the HashSet is modelled by a list consulted only through
`contains`. -/
def Query.make_code_set (q : Query) : List String :=
  q.codes.map (fun c => asciiUpper c.value)

/-- The ref map `HashMap<u64, Vec<String>>`, modelled as an association
list.  The map is consulted only through `get`/`contains_key`, for which
the association-list representation is equivalent; the per-key value
vectors keep their push order exactly. -/
abbrev RefMap := List (Nat × List String)

def refMapGet? (m : RefMap) (k : Nat) : Option (List String) :=
  match m with
  | [] => none
  | (k', v) :: rest => if k' == k then some v else refMapGet? rest k

def refMapContains (m : RefMap) (k : Nat) : Bool :=
  (refMapGet? m k).isSome

/-- One step of `Query::make_ref_map`'s loop body: insert a fresh
singleton vector, or push onto the existing one. -/
def refMapPush (m : RefMap) (k : Nat) (v : String) : RefMap :=
  if refMapContains m k then
    m.map (fun e => if e.1 == k then (e.1, e.2 ++ [v]) else e)
  else
    m ++ [(k, [v])]

/-- `Query::make_ref_map`: for every Provider whose `group_id`,
`tin_type`, `tin_value` are all present, append `"npi,tin_type,tin_value"`
to the vector keyed by the group id.  Providers with missing data
contribute nothing. -/
def Query.make_ref_map (q : Query) : RefMap :=
  q.providers.foldl
    (fun m p =>
      match p.group_id, p.tin_type, p.tin_value with
      | some gid, some tt, some tv =>
          refMapPush m gid (toString p.npi ++ "," ++ tt ++ "," ++ tv)
      | _, _, _ => m)
    []

/-- `Query::log_ref`: set `recorded` on every Provider with the given
group id. -/
def Query.log_ref (q : Query) (gid : Nat) : Query :=
  { q with
    providers := q.providers.map (fun p =>
      match p.group_id with
      | some id => if id == gid then { p with recorded := true } else p
      | none => p) }

/-- `Query::log_code`: the if-chain of src/query.rs lines 183-194,
verbatim. -/
def Query.log_code (q : Query) (c c_type : String) : Query :=
  { q with
    codes := q.codes.map (fun code =>
      if eqIgnoreAsciiCase code.value c && eqIgnoreAsciiCase code.code_type c_type then
        { code with recorded := true }
      else if eqIgnoreAsciiCase code.value c && (code.code_type == "*") then
        { code with recorded := true }
      else if (code.value == "*") && (code.code_type == "*") then
        { code with recorded := true }
      else if (code.value == "*") && eqIgnoreAsciiCase code.code_type c_type then
        { code with recorded := true }
      else code) }

/-- `Query::stat_providers`: true iff at least one provider has a
group_id. -/
def Query.stat_providers (q : Query) : Bool :=
  q.providers.any (fun p => p.group_id.isSome)

/-! ## Scratch records (src/asa.rs) -/

structure Price where
  negotiated_type : String
  negotiated_rate : String
  expiration_date : String
  service_code : String
  billing_class : String
  billing_code_modifier : String
deriving DecidableEq, Repr

def Price.new : Price :=
  { negotiated_type := "", negotiated_rate := "", expiration_date := "",
    service_code := "", billing_class := "", billing_code_modifier := "" }

def Price.new_null : Price :=
  { negotiated_type := "null", negotiated_rate := "null", expiration_date := "null",
    service_code := "null", billing_class := "null", billing_code_modifier := "null" }

/-- `Price::clear_fields` clears every String field, i.e. yields
`Price.new`. -/
def Price.clear_fields (_p : Price) : Price := Price.new

def Price.push_defaults (p : Price) : Price :=
  { negotiated_type := if p.negotiated_type == "" then "null" else p.negotiated_type,
    negotiated_rate := if p.negotiated_rate == "" then "null" else p.negotiated_rate,
    expiration_date := if p.expiration_date == "" then "null" else p.expiration_date,
    service_code := if p.service_code == "" then "null" else p.service_code,
    billing_class := if p.billing_class == "" then "null" else p.billing_class,
    billing_code_modifier :=
      if p.billing_code_modifier == "" then "null" else p.billing_code_modifier }

/-- `Price::print_out`: the six fields, comma separated, in declaration
order. -/
def Price.print_out (p : Price) : String :=
  p.negotiated_type ++ "," ++ p.negotiated_rate ++ "," ++ p.expiration_date ++ ","
    ++ p.service_code ++ "," ++ p.billing_class ++ "," ++ p.billing_code_modifier

structure Rate where
  provider_references : List Nat
  negotiated_prices : List Price
deriving DecidableEq, Repr

def Rate.new : Rate :=
  { provider_references := [], negotiated_prices := [] }

/-- `Rate::clear_fields` clears both vectors, i.e. yields `Rate.new`. -/
def Rate.clear_fields (_r : Rate) : Rate := Rate.new

structure Network where
  negotiation_arrangement : String
  name : String
  billing_code_type : String
  billing_code_type_version : String
  billing_code : String
  description : String
  negotiated_rates : Option (List Rate)
deriving DecidableEq, Repr

def Network.new : Network :=
  { negotiation_arrangement := "", name := "", billing_code_type := "",
    billing_code_type_version := "", billing_code := "", description := "",
    negotiated_rates := none }

/-- `Network::clear_entries` clears every String field and sets
`negotiated_rates` to `None`, i.e. yields `Network.new`. -/
def Network.clear_entries (_n : Network) : Network := Network.new

/-- `Network::push_defaults`: `"null"` for empty non-mandatory fields;
`billing_code` and `negotiated_rates` are never defaulted. -/
def Network.push_defaults (n : Network) : Network :=
  { n with
    negotiation_arrangement :=
      if n.negotiation_arrangement == "" then "null" else n.negotiation_arrangement,
    name := if n.name == "" then "null" else n.name,
    billing_code_type :=
      if n.billing_code_type == "" then "null" else n.billing_code_type,
    billing_code_type_version :=
      if n.billing_code_type_version == "" then "null" else n.billing_code_type_version,
    description := if n.description == "" then "null" else n.description }

/-- `Network::print_out`: the six String fields, comma separated, in
declaration order. -/
def Network.print_out (n : Network) : String :=
  n.negotiation_arrangement ++ "," ++ n.name ++ "," ++ n.billing_code_type ++ ","
    ++ n.billing_code_type_version ++ "," ++ n.billing_code ++ "," ++ n.description

/-! ## Primary output

Everything `asa.rs` writes to its `out : impl Write` sink.  A `Line` is
one `\n`-terminated line; `Line.render` reproduces the exact bytes
written by `print_header` / `print_record`. -/

inductive Line where
  | header
  | row (prov : String) (ref : Nat) (net : Network) (price : Price)
deriving DecidableEq, Repr

def headerString : String :=
  "npi,tin_type,tin_value,group_id,negotiation_arrangement,name,billing_code_type,billing_code_type_version,billing_code,description,negotiated_type,negotiated_rate,expiration_date,service_code,billing_class,billing_code_modifier\n"

def Line.render : Line → String
  | .header => headerString
  | .row prov ref net price =>
      prov ++ "," ++ toString ref ++ "," ++ net.print_out ++ "," ++ price.print_out ++ "\n"

def render_out (out : List Line) : String :=
  String.join (out.map Line.render)

/-! ## Metadata (the `Meta` struct of asa.rs) -/

structure Meta where
  reporting_entity_name : Option String
  reporting_entity_type : Option String
  last_updated_on : Option String
  version : Option String
  count : Nat
deriving DecidableEq, Repr

def Meta.new : Meta :=
  { reporting_entity_name := none, reporting_entity_type := none,
    last_updated_on := none, version := none, count := 0 }

/-- `Meta::add`.  The `e_print` on the fourth fill goes to stderr and is
not modelled. -/
def Meta.add (m : Meta) (key value : String) : Except Err Meta :=
  if key == "reporting_entity_name" then
    .ok { m with reporting_entity_name := some value, count := m.count + 1 }
  else if key == "reporting_entity_type" then
    .ok { m with reporting_entity_type := some value, count := m.count + 1 }
  else if key == "last_updated_on" then
    .ok { m with last_updated_on := some value, count := m.count + 1 }
  else if key == "version" then
    .ok { m with version := some value, count := m.count + 1 }
  else
    .error (.fatal "Assertion broken")

/-! ## Skip utilities (§4.B): `ff_to_next_obj`, `skip_array`,
`bypass_key`.  All are structurally recursive on the event list.  Their
`cb`/`sq` counters are `u64` in the source; decrementing zero is the
debug-build subtraction-overflow panic. -/

/-- `ff_to_next_obj`: consume events until the open-curly count reaches
zero.  Returns the final `(cb, sq)` (the Rust function mutates the
caller's counters through `&mut`) and the remaining events. -/
def ff_to_next_obj : List JsonEvent → Nat → Nat → Except Err (Nat × Nat × List JsonEvent)
  | [], _, _ => .error (.fatal "EOF encountered when trying to skip object!")
  | .startObject :: rest, cb, sq => ff_to_next_obj rest (cb + 1) sq
  | .endObject :: rest, cb, sq =>
      match cb with
      | 0 => .error (.fatal "attempt to subtract with overflow")
      | cb' + 1 =>
          if cb' == 0 then .ok (0, sq, rest)
          else ff_to_next_obj rest cb' sq
  | .startArray :: rest, cb, sq => ff_to_next_obj rest cb (sq + 1)
  | .endArray :: rest, cb, sq =>
      match sq with
      | 0 => .error (.fatal "attempt to subtract with overflow")
      | sq' + 1 => ff_to_next_obj rest cb sq'
  | .eof :: _, _, _ => .error (.fatal "EOF encountered when trying to skip object!")
  | _ :: rest, cb, sq => ff_to_next_obj rest cb sq

/-- `skip_array`: consume array-start/array-end until the given depth
returns to zero.  The Rust loop has no Eof arm; mid-structure exhaustion
of the tokenizer is its error. -/
def skip_array : List JsonEvent → Nat → Except Err (List JsonEvent)
  | [], _ => .error (.fatal "EOF encountered in skip_array")
  | .startArray :: rest, sq => skip_array rest (sq + 1)
  | .endArray :: rest, sq =>
      match sq with
      | 0 => .error (.fatal "attempt to subtract with overflow")
      | sq' + 1 =>
          if sq' == 0 then .ok rest
          else skip_array rest sq'
  | _ :: rest, sq => skip_array rest sq

/-- `bypass_key`: read one event; bypass a whole object or array, accept
a scalar, reject malformation. -/
def bypass_key : List JsonEvent → Except Err (List JsonEvent)
  | [] => .error (.fatal "FATAL ERROR: Eof found in bypass_key.")
  | .startObject :: rest =>
      match ff_to_next_obj rest 1 0 with
      | .ok (_, _, rest') => .ok rest'
      | .error e => .error e
  | .startArray :: rest => skip_array rest 1
  | .eof :: _ => .error (.fatal "FATAL ERROR: Eof found in bypass_key.")
  | .endObject :: rest => .ok rest
  | .endArray :: _ => .error (.fatal "FATAL ERROR: Malformed JSON")
  | _ :: rest => .ok rest

/-! ## `print_record` and `print_header` (the Emitter, §4.H)

The Rust nested `for` loops are split into one recursive function per
loop level.  `print_header` appends `Line.header`; `print_record` returns
the lines it appends (the caller concatenates, as writes to a stream
concatenate) together with the mutated Query. -/

/-- The two inner loops of `print_record`: for each formatted provider
tuple in the ref-map vector, for each price of the rate, one row. -/
def print_record_provs (provs : List String) (ref : Nat) (net : Network)
    (prices : List Price) : List Line :=
  provs.flatMap (fun prov => prices.map (fun price => Line.row prov ref net price))

/-- The reference loop of `print_record`: `query.log_ref(reference)` then
the rows for that reference; `ref_map.get(reference).unwrap()` panics if
the reference is not a key. -/
def print_record_refs (net : Network) (ref_map : RefMap) (prices : List Price) :
    List Nat → Query → Except Err (Query × List Line)
  | [], q => .ok (q, [])
  | ref :: refs, q =>
      let q1 := q.log_ref ref
      match refMapGet? ref_map ref with
      | none => .error (.unwrapFail "print_record: ref_map.get(reference).unwrap()")
      | some provs =>
          match print_record_refs net ref_map prices refs q1 with
          | .ok (q2, lines2) => .ok (q2, print_record_provs provs ref net prices ++ lines2)
          | .error e => .error e

/-- The rate loop of `print_record`. -/
def print_record_rates (net : Network) (ref_map : RefMap) :
    List Rate → Query → Except Err (Query × List Line)
  | [], q => .ok (q, [])
  | rate :: rates, q =>
      match print_record_refs net ref_map rate.negotiated_prices
          rate.provider_references q with
      | .ok (q1, lines1) =>
          match print_record_rates net ref_map rates q1 with
          | .ok (q2, lines2) => .ok (q2, lines1 ++ lines2)
          | .error e => .error e
      | .error e => .error e

/-- `print_record`: unwrap `negotiated_rates`, run the nested loops, then
`query.log_code(billing_code, billing_code_type)`. -/
def print_record (network : Network) (q : Query) (ref_map : RefMap) :
    Except Err (Query × List Line) :=
  match network.negotiated_rates with
  | none => .error (.unwrapFail "print_record: network.negotiated_rates.as_ref().unwrap()")
  | some neg_rates =>
      match print_record_rates network ref_map neg_rates q with
      | .ok (q1, lines) => .ok (q1.log_code network.billing_code network.billing_code_type, lines)
      | .error e => .error e

/-! ## `process_negotiated_prices` (§4.F, prices walker)

The per-price capture state (`State` enum of the Rust function). -/

inductive PriceKey where
  | negotiated_type
  | negotiated_rate
  | expiration_date
  | service_code
  | billing_class
  | billing_code_modifier
  | undefined
deriving DecidableEq, Repr

/-- The `loop` of `process_negotiated_prices`.  `cb`/`sq` are `i32` in
the source.  The Rust `Number` arm appends to `negotiated_rate`
regardless of the capture state (its state check has an empty body). -/
def process_negotiated_prices_loop :
    Nat → List JsonEvent → PriceKey → Int → Int → List Price → Price →
    Except Err (List Price × List JsonEvent)
  | 0, _, _, _, _, _, _ => .error .outOfFuel
  | _ + 1, [], _, _, _, _, _ =>
      .error (.fatal "tokenizer error: input exhausted inside negotiated_prices")
  | fuel + 1, ev :: rest, st, cb, sq, prices, price =>
      match ev with
      | .startObject => process_negotiated_prices_loop fuel rest st (cb + 1) sq prices price
      | .endObject =>
          let cb' := cb - 1
          if cb' == 0 then
            process_negotiated_prices_loop fuel rest st cb' sq
              (prices ++ [price.push_defaults]) price.clear_fields
          else
            process_negotiated_prices_loop fuel rest st cb' sq prices price
      | .startArray => process_negotiated_prices_loop fuel rest st cb (sq + 1) prices price
      | .endArray =>
          let sq' := sq - 1
          if sq' == 0 then .ok (prices, rest)
          else process_negotiated_prices_loop fuel rest st cb sq' prices price
      | .objectKey k =>
          if k == "negotiated_type" then
            process_negotiated_prices_loop fuel rest .negotiated_type cb sq prices price
          else if k == "negotiated_rate" then
            process_negotiated_prices_loop fuel rest .negotiated_rate cb sq prices price
          else if k == "expiration_date" then
            process_negotiated_prices_loop fuel rest .expiration_date cb sq prices price
          else if k == "service_code" then
            process_negotiated_prices_loop fuel rest .service_code cb sq prices price
          else if k == "billing_class" then
            process_negotiated_prices_loop fuel rest .billing_class cb sq prices price
          else if k == "billing_code_modifier" then
            process_negotiated_prices_loop fuel rest .billing_code_modifier cb sq prices price
          else
            match bypass_key rest with
            | .ok rest' => process_negotiated_prices_loop fuel rest' st cb sq prices price
            | .error e => .error e
      | .strVal s =>
          match st with
          | .negotiated_type =>
              process_negotiated_prices_loop fuel rest st cb sq prices
                { price with negotiated_type := price.negotiated_type ++ s }
          | .negotiated_rate =>
              process_negotiated_prices_loop fuel rest st cb sq prices
                { price with negotiated_rate := price.negotiated_rate ++ s }
          | .expiration_date =>
              process_negotiated_prices_loop fuel rest st cb sq prices
                { price with expiration_date := price.expiration_date ++ s }
          | .service_code =>
              process_negotiated_prices_loop fuel rest st cb sq prices
                { price with service_code := price.service_code ++ s ++ " " }
          | .billing_class =>
              process_negotiated_prices_loop fuel rest st cb sq prices
                { price with billing_class := price.billing_class ++ s }
          | .billing_code_modifier =>
              process_negotiated_prices_loop fuel rest st cb sq prices
                { price with billing_code_modifier := price.billing_code_modifier ++ s }
          | .undefined =>
              .error (.fatal "Unsupported key encountered in asa::process_negotiated_prices")
      | .numVal n =>
          process_negotiated_prices_loop fuel rest st cb sq prices
            { price with negotiated_rate := price.negotiated_rate ++ n }
      | _ => process_negotiated_prices_loop fuel rest st cb sq prices price

/-- `process_negotiated_prices`: run the loop from the initial state,
then substitute the single all-`"null"` sentinel Price if no prices were
collected. -/
def process_negotiated_prices (fuel : Nat) (events : List JsonEvent) :
    Except Err (List Price × List JsonEvent) :=
  match process_negotiated_prices_loop fuel events .undefined 0 0 [] Price.new with
  | .ok (prices, rest) =>
      if prices.length == 0 then .ok ([Price.new_null], rest)
      else .ok (prices, rest)
  | .error e => .error e

/-! ## `process_negotiated_rates` (§4.F, rates walker) -/

/-- The `loop` of `process_negotiated_rates`.  `cb`/`sq` are `u64` in the
source (they are passed by `&mut` to `ff_to_next_obj`); the zero
decrement is the debug subtraction-overflow panic.  `fuel0` is handed
unchanged to the prices sub-processor. -/
def process_negotiated_rates_loop (ref_map : RefMap) (fuel0 : Nat) :
    Nat → List JsonEvent → Nat → Nat → List Rate → Rate →
    Except Err (Option (List Rate) × List JsonEvent)
  | 0, _, _, _, _, _ => .error .outOfFuel
  | _ + 1, [], _, _, _, _ =>
      .error (.fatal "tokenizer error: input exhausted inside negotiated_rates")
  | fuel + 1, ev :: rest, cb, sq, rates, rate =>
      match ev with
      | .startObject => process_negotiated_rates_loop ref_map fuel0 fuel rest (cb + 1) sq rates rate
      | .endObject =>
          match cb with
          | 0 => .error (.fatal "attempt to subtract with overflow")
          | cb' + 1 =>
              if cb' == 0 then
                let rates' := if rate.provider_references.length != 0 then rates ++ [rate] else rates
                process_negotiated_rates_loop ref_map fuel0 fuel rest cb' sq rates' rate.clear_fields
              else
                process_negotiated_rates_loop ref_map fuel0 fuel rest cb' sq rates rate
      | .startArray => process_negotiated_rates_loop ref_map fuel0 fuel rest cb (sq + 1) rates rate
      | .endArray =>
          match sq with
          | 0 => .error (.fatal "attempt to subtract with overflow")
          | sq' + 1 =>
              if sq' == 0 then
                if rates.length == 0 then .ok (none, rest) else .ok (some rates, rest)
              else
                if rate.provider_references.length == 0 then
                  match ff_to_next_obj rest cb sq' with
                  | .ok (cb2, sq2, rest') =>
                      process_negotiated_rates_loop ref_map fuel0 fuel rest' cb2 sq2 rates rate
                  | .error e => .error e
                else
                  process_negotiated_rates_loop ref_map fuel0 fuel rest cb sq' rates rate
      | .objectKey k =>
          if k == "provider_references" then
            process_negotiated_rates_loop ref_map fuel0 fuel rest cb sq rates rate
          else if k == "negotiated_prices" then
            match process_negotiated_prices fuel0 rest with
            | .ok (prices, rest') =>
                process_negotiated_rates_loop ref_map fuel0 fuel rest' cb sq rates
                  { rate with negotiated_prices := prices }
            | .error e => .error e
          else
            match bypass_key rest with
            | .ok rest' => process_negotiated_rates_loop ref_map fuel0 fuel rest' cb sq rates rate
            | .error e => .error e
      | .numVal n =>
          match parseU64 n with
          | none => .error (.fatal "Failed to parse provider reference")
          | some ref_num =>
              if refMapContains ref_map ref_num then
                process_negotiated_rates_loop ref_map fuel0 fuel rest cb sq rates
                  { rate with provider_references := rate.provider_references ++ [ref_num] }
              else
                process_negotiated_rates_loop ref_map fuel0 fuel rest cb sq rates rate
      | .eof => .error (.fatal "FATAL ERROR: Eof encountered in asa::process_negotiated_rates")
      | _ => process_negotiated_rates_loop ref_map fuel0 fuel rest cb sq rates rate

def process_negotiated_rates (fuel : Nat) (ref_map : RefMap) (events : List JsonEvent) :
    Except Err (Option (List Rate) × List JsonEvent) :=
  process_negotiated_rates_loop ref_map fuel fuel events 0 0 [] Rate.new

/-! ## `process_in_network` (§4.E)

The per-element capture state (`State` enum of the Rust function).  The
progress bar and `obj_count` are stderr diagnostics and are not
modelled. -/

inductive NetKey where
  | negotiation_arrangement
  | name
  | billing_code_type
  | billing_code_type_version
  | billing_code
  | description
  | undefined
deriving DecidableEq, Repr

/-- The `loop` of `process_in_network`.  `cb`/`sq` are `u64`.  The
`network.clear_entries()` at the end of the `EndObject` arm is
unconditional in the source and is kept so here.  On a billing-code
mismatch the scratch is cleared and the element is fast-forwarded; the
capture state is reset to `undefined` after every String event (the reset
sits after the whole `String` arm in the source). -/
def process_in_network_loop (codeset : List String) (ref_map : RefMap) (fuel0 : Nat) :
    Nat → List JsonEvent → Query → NetKey → Bool → Network → Nat → Nat → List Line →
    Except Err (Query × List Line × List JsonEvent)
  | 0, _, _, _, _, _, _, _, _ => .error .outOfFuel
  | _ + 1, [], _, _, _, _, _, _, _ =>
      .error (.fatal "tokenizer error: input exhausted inside in_network")
  | fuel + 1, ev :: rest, q, st, hw, network, cb, sq, out =>
      match ev with
      | .startObject =>
          process_in_network_loop codeset ref_map fuel0 fuel rest q st hw network (cb + 1) sq out
      | .endObject =>
          match cb with
          | 0 => .error (.fatal "attempt to subtract with overflow")
          | cb' + 1 =>
              if cb' == 0 && network.billing_code != "" && network.negotiated_rates.isSome then
                let (hw', out1) := if hw then (hw, out) else (true, out ++ [Line.header])
                let network' := network.push_defaults
                match print_record network' q ref_map with
                | .ok (q', lines) =>
                    process_in_network_loop codeset ref_map fuel0 fuel rest q' st hw'
                      network'.clear_entries cb' sq (out1 ++ lines)
                | .error e => .error e
              else
                process_in_network_loop codeset ref_map fuel0 fuel rest q st hw
                  network.clear_entries cb' sq out
      | .startArray =>
          process_in_network_loop codeset ref_map fuel0 fuel rest q st hw network cb (sq + 1) out
      | .endArray =>
          match sq with
          | 0 => .error (.fatal "attempt to subtract with overflow")
          | sq' + 1 =>
              if sq' == 0 then .ok (q, out, rest)
              else process_in_network_loop codeset ref_map fuel0 fuel rest q st hw network cb sq' out
      | .objectKey k =>
          if k == "negotiation_arrangement" then
            process_in_network_loop codeset ref_map fuel0 fuel rest q .negotiation_arrangement hw network cb sq out
          else if k == "name" then
            process_in_network_loop codeset ref_map fuel0 fuel rest q .name hw network cb sq out
          else if k == "billing_code_type" then
            process_in_network_loop codeset ref_map fuel0 fuel rest q .billing_code_type hw network cb sq out
          else if k == "billing_code_type_version" then
            process_in_network_loop codeset ref_map fuel0 fuel rest q .billing_code_type_version hw network cb sq out
          else if k == "billing_code" then
            process_in_network_loop codeset ref_map fuel0 fuel rest q .billing_code hw network cb sq out
          else if k == "description" then
            process_in_network_loop codeset ref_map fuel0 fuel rest q .description hw network cb sq out
          else if k == "negotiated_rates" then
            match process_negotiated_rates fuel0 ref_map rest with
            | .ok (some rates, rest') =>
                process_in_network_loop codeset ref_map fuel0 fuel rest' q .undefined hw
                  { network with negotiated_rates := some rates } cb sq out
            | .ok (none, rest') =>
                match ff_to_next_obj rest' cb sq with
                | .ok (cb2, sq2, rest2) =>
                    process_in_network_loop codeset ref_map fuel0 fuel rest2 q .undefined hw
                      network.clear_entries cb2 sq2 out
                | .error e => .error e
            | .error e => .error e
          else
            match bypass_key rest with
            | .ok rest' => process_in_network_loop codeset ref_map fuel0 fuel rest' q st hw network cb sq out
            | .error e => .error e
      | .strVal s =>
          match st with
          | .negotiation_arrangement =>
              process_in_network_loop codeset ref_map fuel0 fuel rest q .undefined hw
                { network with negotiation_arrangement := network.negotiation_arrangement ++ s } cb sq out
          | .name =>
              process_in_network_loop codeset ref_map fuel0 fuel rest q .undefined hw
                { network with name := network.name ++ s } cb sq out
          | .billing_code_type =>
              process_in_network_loop codeset ref_map fuel0 fuel rest q .undefined hw
                { network with billing_code_type := network.billing_code_type ++ s } cb sq out
          | .billing_code_type_version =>
              process_in_network_loop codeset ref_map fuel0 fuel rest q .undefined hw
                { network with billing_code_type_version := network.billing_code_type_version ++ s } cb sq out
          | .billing_code =>
              let bc := asciiUpper (network.billing_code ++ s)
              if !(codeset.contains bc) && !(codeset.contains "*") then
                match ff_to_next_obj rest cb sq with
                | .ok (cb2, sq2, rest') =>
                    process_in_network_loop codeset ref_map fuel0 fuel rest' q .undefined hw
                      { network with billing_code := bc }.clear_entries cb2 sq2 out
                | .error e => .error e
              else
                process_in_network_loop codeset ref_map fuel0 fuel rest q .undefined hw
                  { network with billing_code := bc } cb sq out
          | .description =>
              process_in_network_loop codeset ref_map fuel0 fuel rest q .undefined hw
                { network with description := network.description ++ s } cb sq out
          | .undefined =>
              .error (.fatal "String encountered in asa::process_in_network with unsupported key")
      | _ => process_in_network_loop codeset ref_map fuel0 fuel rest q st hw network cb sq out

/-- `process_in_network`: build the code set and ref map from the Query
once, then run the loop.  Returns the mutated Query, the lines written to
`out`, and the remaining events. -/
def process_in_network (fuel : Nat) (events : List JsonEvent) (q : Query) :
    Except Err (Query × List Line × List JsonEvent) :=
  process_in_network_loop q.make_code_set q.make_ref_map fuel fuel events q
    .undefined false Network.new 0 0 []

/-! ## `process_provider_groups` (§4.D, provider-groups walker) -/

inductive CaptureState where
  | Ttype
  | Value
  | Npi
  | Undefined
deriving DecidableEq, Repr

/-- The backward scan of the Rust `for i in (0..providers.len()).rev()`
loop: the argument is the number of indices still to visit, so index
`i` is visited first, then `i - 1`, and so on.  On the first (highest)
index holding the npi: if both `group_id` and `tin_value` are unset, mark
its two `needs_*` flags; otherwise append a fresh flagged Provider.  If
no record holds the npi the vector is returned unchanged.  The `none`
arm of the lookup is unreachable when the function is entered at
`providers.length`. -/
def npi_scan_loop (providers : List Provider) (curr_npi : Nat) : Nat → List Provider
  | 0 => providers
  | i + 1 =>
      match providers[i]? with
      | none => npi_scan_loop providers curr_npi i
      | some p =>
          if p.npi != curr_npi then npi_scan_loop providers curr_npi i
          else
            match p.group_id, p.tin_value with
            | none, none => providers.set i { p with needs_gid := true, needs_tin := true }
            | _, _ =>
                providers ++ [{ Provider.new curr_npi with needs_gid := true, needs_tin := true }]

/-- The whole `JsonEvent::Number` body of `process_provider_groups` after
the npi-set membership test: scan the Providers from the end. -/
def handle_npi (providers : List Provider) (curr_npi : Nat) : List Provider :=
  npi_scan_loop providers curr_npi providers.length

/-- The `loop` of `process_provider_groups`.  `cb`/`sq` are `i32`.  The
npi set is computed once at entry (see `process_provider_groups`) and is
not re-derived from the growing Providers vector. -/
def process_provider_groups_loop (npi_set : List Nat) :
    Nat → List JsonEvent → Query → CaptureState → Option String → Option String → Int → Int →
    Except Err (Query × List JsonEvent)
  | 0, _, _, _, _, _, _, _ => .error .outOfFuel
  | _ + 1, [], _, _, _, _, _, _ =>
      .error (.fatal "tokenizer error: input exhausted inside provider_groups")
  | fuel + 1, ev :: rest, q, st, t_type, t_value, cb, sq =>
      match ev with
      | .startObject =>
          process_provider_groups_loop npi_set fuel rest q st t_type t_value (cb + 1) sq
      | .endObject =>
          let cb' := cb - 1
          if cb' == 0 then
            let t_type' := if t_type.isNone then some "null" else t_type
            let t_value' := if t_value.isNone then some "null" else t_value
            let q' := { q with
              providers := q.providers.map (fun p =>
                if p.needs_tin then
                  { p with tin_value := t_value', tin_type := t_type', needs_tin := false }
                else p) }
            process_provider_groups_loop npi_set fuel rest q' st none none cb' sq
          else
            process_provider_groups_loop npi_set fuel rest q st t_type t_value cb' sq
      | .startArray =>
          process_provider_groups_loop npi_set fuel rest q st t_type t_value cb (sq + 1)
      | .endArray =>
          let sq' := sq - 1
          if sq' == 0 then .ok (q, rest)
          else process_provider_groups_loop npi_set fuel rest q st t_type t_value cb sq'
      | .objectKey k =>
          if k == "npi" then
            process_provider_groups_loop npi_set fuel rest q .Npi t_type t_value cb sq
          else if k == "type" then
            process_provider_groups_loop npi_set fuel rest q .Ttype t_type t_value cb sq
          else if k == "value" then
            process_provider_groups_loop npi_set fuel rest q .Value t_type t_value cb sq
          else if k == "tin" then
            process_provider_groups_loop npi_set fuel rest q st t_type t_value cb sq
          else
            match bypass_key rest with
            | .ok rest' => process_provider_groups_loop npi_set fuel rest' q st t_type t_value cb sq
            | .error e => .error e
      | .strVal v =>
          match st with
          | .Ttype =>
              process_provider_groups_loop npi_set fuel rest q .Undefined (some v) t_value cb sq
          | .Value =>
              process_provider_groups_loop npi_set fuel rest q .Undefined t_type (some v) cb sq
          | _ =>
              .error (.fatal "Error: string value encountered in invalid state in asa:process_provider_groups")
      | .numVal n =>
          match parseU64 n with
          | none => .error (.fatal "Failed to parse npi")
          | some curr_npi =>
              if st != CaptureState.Npi then
                .error (.fatal "Error: number value encountered in invalid state in asa::process_provider_groups")
              else if !(npi_set.contains curr_npi) then
                process_provider_groups_loop npi_set fuel rest q st t_type t_value cb sq
              else
                process_provider_groups_loop npi_set fuel rest
                  { q with providers := handle_npi q.providers curr_npi } st t_type t_value cb sq
      | _ => process_provider_groups_loop npi_set fuel rest q st t_type t_value cb sq

def process_provider_groups (fuel : Nat) (events : List JsonEvent) (q : Query) :
    Except Err (Query × List JsonEvent) :=
  process_provider_groups_loop q.make_npi_set fuel events q .Undefined none none 0 0

/-! ## `process_provider_refs` (§4.D) -/

/-- The `loop` of `process_provider_refs`.  `cb`/`sq` are `i32`.  The
`pg_id` slot is initialised once for the whole traversal at the Rust
function's entry and — unlike the tin scratch of the groups walker — is
never reset between elements; the model reproduces this.  The source's
`downcast_ref::<NonFatalError>` arm around the `process_provider_groups`
call is unreachable (that callee returns no `NonFatalError`), so a
sub-call error simply propagates here as it does there. -/
def process_provider_refs_loop (fuel0 : Nat) :
    Nat → List JsonEvent → Query → Bool → Option Nat → Int → Int →
    Except Err (Query × List JsonEvent)
  | 0, _, _, _, _, _, _ => .error .outOfFuel
  | _ + 1, [], _, _, _, _, _ =>
      .error (.fatal "tokenizer error: input exhausted inside provider_references")
  | fuel + 1, ev :: rest, q, nf_seen, pg_id, cb, sq =>
      match ev with
      | .startObject => process_provider_refs_loop fuel0 fuel rest q nf_seen pg_id (cb + 1) sq
      | .endObject =>
          let cb' := cb - 1
          if cb' == 0 then
            let nf_seen' := if pg_id.isNone then true else nf_seen
            let q' := { q with
              providers := q.providers.map (fun p =>
                if p.needs_gid then { p with group_id := pg_id, needs_gid := false } else p) }
            process_provider_refs_loop fuel0 fuel rest q' nf_seen' pg_id cb' sq
          else
            process_provider_refs_loop fuel0 fuel rest q nf_seen pg_id cb' sq
      | .startArray => process_provider_refs_loop fuel0 fuel rest q nf_seen pg_id cb (sq + 1)
      | .endArray =>
          let sq' := sq - 1
          if sq' == 0 then
            if nf_seen then
              .error (.nonFatal "Non fatal error in asa::process_provider_refs")
            else .ok (q, rest)
          else process_provider_refs_loop fuel0 fuel rest q nf_seen pg_id cb sq'
      | .objectKey k =>
          if k == "provider_group_id" then
            process_provider_refs_loop fuel0 fuel rest q nf_seen pg_id cb sq
          else if k == "provider_groups" then
            match process_provider_groups fuel0 rest q with
            | .ok (q', rest') => process_provider_refs_loop fuel0 fuel rest' q' nf_seen pg_id cb sq
            | .error e => .error e
          else
            match bypass_key rest with
            | .ok rest' => process_provider_refs_loop fuel0 fuel rest' q nf_seen pg_id cb sq
            | .error e => .error e
      | .numVal n =>
          match parseU64 n with
          | none => .error (.fatal "Group ID cannot convert to u64")
          | some v => process_provider_refs_loop fuel0 fuel rest q nf_seen (some v) cb sq
      | _ => process_provider_refs_loop fuel0 fuel rest q nf_seen pg_id cb sq

def process_provider_refs (fuel : Nat) (events : List JsonEvent) (q : Query) :
    Except Err (Query × List JsonEvent) :=
  process_provider_refs_loop fuel fuel events q false none 0 0

/-! ## The driver (`asa::run`, §4.G)

The outcome always carries the Query and the primary output written so
far; `err = none` is `Ok(())`.  (On an error path the Rust caller's
`query` keeps the in-place mutations of the failing phase; the model's
outcome keeps the Query from the last completed phase.  No claim
consults the Query of an error outcome.)  The post-loop unsupported-keys
report goes to the process's stdout/stderr diagnostics, not to the `out`
sink, and is not modelled. -/

structure RunOutcome where
  q : Query
  out : List Line
  err : Option Err
deriving DecidableEq, Repr

/-- The `loop` of `run`.  `events0` is the full event sequence of the
file, used by the reset protocol to re-open the source; `fuel0` is the
fuel handed to sub-processors; `depth` is the `i32` depth counter. -/
def run_loop (events0 : List JsonEvent) (fuel0 : Nat) :
    Nat → List JsonEvent → Query → List Line → Bool → Bool → Bool → Int → Meta → Option String →
    RunOutcome
  | 0, _, q, out, _, _, _, _, _, _ => ⟨q, out, some .outOfFuel⟩
  | _ + 1, [], q, out, _, _, _, _, _, _ =>
      ⟨q, out, some (.fatal "tokenizer error: input exhausted at top level")⟩
  | fuel + 1, ev :: rest, q, out, p_seen, n_seen, reset, depth, meta, meta_key =>
      match ev with
      | .startObject =>
          run_loop events0 fuel0 fuel rest q out p_seen n_seen reset (depth + 1) meta meta_key
      | .endObject =>
          let depth' := depth - 1
          if !p_seen || !n_seen then
            ⟨q, out, some (.fatal "missing provider_references or in_network")⟩
          else if depth' == 0 && !reset then
            ⟨q, out, none⟩
          else if depth' == 0 && reset then
            run_loop events0 fuel0 fuel events0 q out p_seen n_seen false depth' meta meta_key
          else
            run_loop events0 fuel0 fuel rest q out p_seen n_seen reset depth' meta meta_key
      | .objectKey k =>
          if depth != 1 then
            run_loop events0 fuel0 fuel rest q out p_seen n_seen reset depth meta meta_key
          else if k == "reporting_entity_name" || k == "reporting_entity_type"
              || k == "last_updated_on" || k == "version" then
            run_loop events0 fuel0 fuel rest q out p_seen n_seen reset depth meta (some k)
          else if k == "provider_references" then
            match process_provider_refs fuel0 rest q with
            | .ok (q', rest') =>
                if !q'.stat_providers then ⟨q', out, none⟩
                else run_loop events0 fuel0 fuel rest' q' out true n_seen reset depth meta meta_key
            | .error e => ⟨q, out, some e⟩
          else if k == "in_network" then
            if !p_seen then
              match skip_array rest 0 with
              | .ok rest' =>
                  run_loop events0 fuel0 fuel rest' q out p_seen true true depth meta meta_key
              | .error e => ⟨q, out, some e⟩
            else
              match process_in_network fuel0 rest q with
              | .ok (q', lines, rest') =>
                  run_loop events0 fuel0 fuel rest' q' (out ++ lines) p_seen true reset depth meta meta_key
              | .error e => ⟨q, out, some e⟩
          else
            match bypass_key rest with
            | .ok rest' =>
                run_loop events0 fuel0 fuel rest' q out p_seen n_seen reset depth meta meta_key
            | .error e => ⟨q, out, some e⟩
      | .strVal v =>
          if depth != 1 then
            run_loop events0 fuel0 fuel rest q out p_seen n_seen reset depth meta meta_key
          else
            match meta_key with
            | none => ⟨q, out, some (.fatal "Key for field not saved correctly in asa::run")⟩
            | some key =>
                match meta.add key v with
                | .ok meta' =>
                    run_loop events0 fuel0 fuel rest q out p_seen n_seen reset depth meta' none
                | .error e => ⟨q, out, some e⟩
      | .eof =>
          ⟨q, out, some (.fatal "ERROR: Either the programming logic is wrong or, the JSON is corrupted!")⟩
      | _ => run_loop events0 fuel0 fuel rest q out p_seen n_seen reset depth meta meta_key

/-- `asa::run`.  One `fuel` feeds both the driver loop and (unchanged)
every sub-processor. -/
def run (fuel : Nat) (events : List JsonEvent) (q : Query) : RunOutcome :=
  run_loop events fuel fuel events q [] false false false 0 Meta.new none

/-! ## Specification-side definitions

`emitted_rows` is the four-level nested emission order stated by the
spec's row emission rule (rates in source order, references in source
order, provider tuples in ref-map order, prices in source order); the
theorems below relate `print_record` to it. -/

def emitted_rows (rates : List Rate) (net : Network) (ref_map : RefMap) : List Line :=
  rates.flatMap (fun rate =>
    rate.provider_references.flatMap (fun ref =>
      ((refMapGet? ref_map ref).getD []).flatMap (fun prov =>
        rate.negotiated_prices.map (fun price => Line.row prov ref net price))))

/-- All provider references retained in a Rate are keys of the ref map. -/
def rateRefsOk (ref_map : RefMap) (r : Rate) : Prop :=
  ∀ ref ∈ r.provider_references, refMapContains ref_map ref = true

/-- The invariant carried by the in-network walk: a captured (non-empty)
billing code passed the code-set filter, and every retained provider
reference is a ref-map key. -/
def networkOk (codeset : List String) (ref_map : RefMap) (n : Network) : Prop :=
  (n.billing_code ≠ "" →
    (codeset.contains n.billing_code = true ∨ codeset.contains "*" = true)) ∧
  (∀ rates, n.negotiated_rates = some rates → ∀ r ∈ rates, rateRefsOk ref_map r)

/-- Filter soundness for one output line: data rows carry a billing code
admitted by the code-set filter and a reference that keys the ref map. -/
def lineOk (codeset : List String) (ref_map : RefMap) : Line → Prop
  | .header => True
  | .row _ ref net _ =>
      (codeset.contains net.billing_code = true ∨ codeset.contains "*" = true) ∧
      refMapContains ref_map ref = true

/-- The combined conclusion of the in-network walk invariant: a normal
result emits only sound lines, and an error is never one of
`print_record`'s unwrap panics. -/
def inNetResOk (codeset : List String) (ref_map : RefMap) :
    Except Err (Query × List Line × List JsonEvent) → Prop
  | .ok (_, lines, _) => ∀ l ∈ lines, lineOk codeset ref_map l
  | .error e => ∀ s, e ≠ .unwrapFail s

/-! ## Concrete inputs used by the closed evaluation theorems and the
witnesses.  `exPrefs`/`exNet`/`exQuery` mirror the repository's own basic
test file (testfiles/data_files/basic_test.json.gz with query npi 1701,
code `(*, Code 1)`). -/

def exPrefs : List JsonEvent :=
  [.startArray,
   .startObject,
    .objectKey "provider_group_id", .numVal "11",
    .objectKey "provider_groups", .startArray,
     .startObject,
      .objectKey "npi", .startArray, .numVal "1701", .endArray,
      .objectKey "tin", .startObject, .objectKey "type", .strVal "ein",
        .objectKey "value", .strVal "101", .endObject,
     .endObject,
    .endArray,
   .endObject,
   .endArray]

def exNet : List JsonEvent :=
  [.startArray,
   .startObject,
    .objectKey "negotiation_arrangement", .strVal "alpha",
    .objectKey "name", .strVal "Item 1",
    .objectKey "billing_code_type", .strVal "Type 1",
    .objectKey "billing_code_type_version", .strVal "2022",
    .objectKey "billing_code", .strVal "Code 1",
    .objectKey "description", .strVal "Item 1",
    .objectKey "negotiated_rates", .startArray,
     .startObject,
      .objectKey "provider_references", .startArray, .numVal "11", .endArray,
      .objectKey "negotiated_prices", .startArray,
       .startObject,
        .objectKey "negotiated_type", .strVal "neg type 1",
        .objectKey "negotiated_rate", .numVal "9.99",
        .objectKey "expiration_date", .strVal "9999-12-31",
        .objectKey "service_code", .startArray, .strVal "A", .strVal "B", .strVal "C", .endArray,
        .objectKey "billing_class", .strVal "class 1",
       .endObject,
      .endArray,
     .endObject,
    .endArray,
   .endObject,
   .endArray]

def exQuery : Query :=
  { providers := [Provider.new 1701], codes := [Code.new "*" "Code 1"] }

/-- `exQuery` after `process_provider_refs` on `exPrefs`. -/
def exQuery' : Query :=
  { providers := [{ npi := 1701, group_id := some 11, tin_type := some "ein",
                    tin_value := some "101", needs_tin := false, needs_gid := false,
                    recorded := false }],
    codes := [Code.new "*" "Code 1"] }

/-- `exQuery'` after `process_in_network` on `exNet` (the one match is
logged on the provider and the code). -/
def exQuery2 : Query :=
  { providers := [{ npi := 1701, group_id := some 11, tin_type := some "ein",
                    tin_value := some "101", needs_tin := false, needs_gid := false,
                    recorded := true }],
    codes := [{ code_type := "*", value := "Code 1", seen := false, recorded := true }] }

/-- The single Price of `exNet`'s rate, after defaults. -/
def exPrice : Price :=
  { negotiated_type := "neg type 1", negotiated_rate := "9.99",
    expiration_date := "9999-12-31", service_code := "A B C ",
    billing_class := "class 1", billing_code_modifier := "null" }

/-- The single surviving Rate of `exNet`. -/
def exRate : Rate :=
  { provider_references := [11], negotiated_prices := [exPrice] }

/-- The Network scratch of `exNet`'s single element at emission time. -/
def exNetwork : Network :=
  { negotiation_arrangement := "alpha", name := "Item 1", billing_code_type := "Type 1",
    billing_code_type_version := "2022", billing_code := "CODE 1", description := "Item 1",
    negotiated_rates := some [exRate] }

/-- The rows `process_in_network` writes for `exNet` under `exQuery'`. -/
def exRows : List Line :=
  [Line.header, Line.row "1701,ein,101" 11 exNetwork exPrice]

/-- A provider_references array whose *first* element has no
`provider_group_id` (and a second, well-formed element): the
non-fatal-error scenario of C1. -/
def c1Prefs : List JsonEvent :=
  [.startArray,
   .startObject,
    .objectKey "provider_groups", .startArray,
     .startObject,
      .objectKey "npi", .startArray, .numVal "42", .endArray,
      .objectKey "tin", .startObject, .objectKey "type", .strVal "ein",
        .objectKey "value", .strVal "9", .endObject,
     .endObject,
    .endArray,
   .endObject,
   .startObject,
    .objectKey "provider_group_id", .numVal "11",
    .objectKey "provider_groups", .startArray,
     .startObject,
      .objectKey "npi", .startArray, .numVal "1701", .endArray,
      .objectKey "tin", .startObject, .objectKey "type", .strVal "ein",
        .objectKey "value", .strVal "101", .endObject,
     .endObject,
    .endArray,
   .endObject,
   .endArray]

def c1Query : Query :=
  { providers := [Provider.new 42, Provider.new 1701], codes := [Code.new "*" "Code 1"] }

/-- The whole C1 data file: outer object, `provider_references` =
`c1Prefs`, then an `in_network` array (`exNet`) whose single element
matches the query. -/
def c1Events : List JsonEvent :=
  .startObject :: .objectKey "provider_references" ::
    (c1Prefs ++ (.objectKey "in_network" :: (exNet ++ [.endObject])))

/-- A provider_references array whose second element lacks
`provider_group_id`: the stale-slot scenario of C4.  Element one has
group id 1 with npi 42; element two has npi 43 and *no* group id. -/
def c4Prefs : List JsonEvent :=
  [.startArray,
   .startObject,
    .objectKey "provider_group_id", .numVal "1",
    .objectKey "provider_groups", .startArray,
     .startObject,
      .objectKey "npi", .startArray, .numVal "42", .endArray,
      .objectKey "tin", .startObject, .objectKey "type", .strVal "ein",
        .objectKey "value", .strVal "7", .endObject,
     .endObject,
    .endArray,
   .endObject,
   .startObject,
    .objectKey "provider_groups", .startArray,
     .startObject,
      .objectKey "npi", .startArray, .numVal "43", .endArray,
      .objectKey "tin", .startObject, .objectKey "type", .strVal "ein",
        .objectKey "value", .strVal "8", .endObject,
     .endObject,
    .endArray,
   .endObject,
   .endArray]

def c4Query : Query :=
  { providers := [Provider.new 42, Provider.new 43], codes := [] }

/-- `exQuery2` after the redundant second pass over `exPrefs` that the
reset protocol performs on a reversed file: the npi-1701 record already
carries a group id and tin, so the walker appends a fresh duplicate
record (whose `recorded` flag stays false).  This touches only
diagnostics, never the primary output. -/
def exQuery3 : Query :=
  { providers := [{ npi := 1701, group_id := some 11, tin_type := some "ein",
                    tin_value := some "101", needs_tin := false, needs_gid := false,
                    recorded := true },
                  { npi := 1701, group_id := some 11, tin_type := some "ein",
                    tin_value := some "101", needs_tin := false, needs_gid := false,
                    recorded := false }],
    codes := [{ code_type := "*", value := "Code 1", seen := false, recorded := true }] }

/-- The event sequence of a data file whose outer object holds
`provider_references` (contents `P`) before `in_network` (contents `N`).
`P` and `N` are complete array event blocks (`startArray … endArray`). -/
def fwd_events (P N : List JsonEvent) : List JsonEvent :=
  .startObject :: .objectKey "provider_references" ::
    (P ++ (.objectKey "in_network" :: (N ++ [.endObject])))

/-- The same file with the two top-level arrays swapped. -/
def rev_events (P N : List JsonEvent) : List JsonEvent :=
  .startObject :: .objectKey "in_network" ::
    (N ++ (.objectKey "provider_references" :: (P ++ [.endObject])))

/-- `exNetwork` with a single Rate whose prices are the sentinel
null-Price (the empty-`negotiated_prices` outcome). -/
def exNetworkNull : Network :=
  { exNetwork with
    negotiated_rates := some [{ provider_references := [11],
                                negotiated_prices := [Price.new_null] }] }

/-! ## C6 and C9: the code-logging predicate -/

/-- C6: `log_code(c, c_type)` marks a stored Code recorded exactly when
one of the four disjuncts holds — value matches and code_type matches,
value matches and stored code_type is `*`, stored value is `*` and
stored code_type is `*`, or stored value is `*` and code_type matches —
with the value and code_type comparisons case-insensitive ASCII; Codes
matching no disjunct are returned unchanged (in particular their
`recorded` flag is unchanged). -/
theorem log_code_match_rule (q : Query) (c c_type : String) :
    (q.log_code c c_type).codes = q.codes.map (fun code =>
      if (eqIgnoreAsciiCase code.value c && eqIgnoreAsciiCase code.code_type c_type)
          || (eqIgnoreAsciiCase code.value c && (code.code_type == "*"))
          || ((code.value == "*") && (code.code_type == "*"))
          || ((code.value == "*") && eqIgnoreAsciiCase code.code_type c_type) then
        { code with recorded := true }
      else code) := by
  show q.codes.map _ = q.codes.map _
  apply List.map_congr_left
  intro code _
  cases h1 : eqIgnoreAsciiCase code.value c <;>
    cases h2 : eqIgnoreAsciiCase code.code_type c_type <;>
      cases h3 : code.code_type == "*" <;>
        cases h4 : code.value == "*" <;>
          simp [h1, h2, h3, h4]

/-- C9: `log_code` is idempotent — calling it twice with the same
arguments on a Query leaves the same state (in particular every Code's
`recorded` flag) as calling it once. -/
theorem log_code_idempotent (q : Query) (c c_type : String) :
    (q.log_code c c_type).log_code c c_type = q.log_code c c_type := by
  show Query.mk _ _ = Query.mk _ _
  simp only [Query.log_code, List.map_map]
  refine congrArg (Query.mk q.providers) ?_
  apply List.map_congr_left
  intro code _
  simp only [Function.comp_apply]
  cases h1 : eqIgnoreAsciiCase code.value c <;>
    cases h2 : eqIgnoreAsciiCase code.code_type c_type <;>
      cases h3 : code.code_type == "*" <;>
        cases h4 : code.value == "*" <;>
          simp [h1, h2, h3, h4]

/-! ## `print_record` emission: helper lemmas -/

theorem refMapContains_some {m : RefMap} {k : Nat}
    (h : refMapContains m k = true) : ∃ v, refMapGet? m k = some v := by
  unfold refMapContains at h
  cases hg : refMapGet? m k with
  | none => rw [hg] at h; simp at h
  | some v => exact ⟨v, rfl⟩

theorem flatMap_single {α β : Type} (l : List α) (f : α → β) :
    (l.flatMap fun a => [f a]) = l.map f := by
  induction l with
  | nil => rfl
  | cons a l ih => simp [List.flatMap_cons, ih]

theorem print_record_refs_eq (net : Network) (ref_map : RefMap) (prices : List Price)
    (refs : List Nat) (q : Query)
    (h : ∀ ref ∈ refs, refMapContains ref_map ref = true) :
    ∃ q2, print_record_refs net ref_map prices refs q =
      .ok (q2, refs.flatMap (fun ref =>
        print_record_provs ((refMapGet? ref_map ref).getD []) ref net prices)) := by
  induction refs generalizing q with
  | nil => exact ⟨q, rfl⟩
  | cons r rs ih =>
      obtain ⟨provs, hp⟩ := refMapContains_some (h r (List.mem_cons_self r rs))
      obtain ⟨q2, hq2⟩ := ih (q.log_ref r) (fun x hx => h x (List.mem_cons_of_mem _ hx))
      refine ⟨q2, ?_⟩
      simp [print_record_refs, hp, hq2]

theorem print_record_rates_eq (net : Network) (ref_map : RefMap)
    (rates : List Rate) (q : Query)
    (h : ∀ r ∈ rates, rateRefsOk ref_map r) :
    ∃ q2, print_record_rates net ref_map rates q =
      .ok (q2, emitted_rows rates net ref_map) := by
  induction rates generalizing q with
  | nil => exact ⟨q, rfl⟩
  | cons rate rs ih =>
      obtain ⟨q1, h1⟩ := print_record_refs_eq net ref_map rate.negotiated_prices
        rate.provider_references q (h rate (List.mem_cons_self rate rs))
      obtain ⟨q2, h2⟩ := ih q1 (fun r hr => h r (List.mem_cons_of_mem _ hr))
      refine ⟨q2, ?_⟩
      simp [print_record_rates, h1, h2, emitted_rows, print_record_provs]

theorem print_record_eq (net : Network) (q : Query) (ref_map : RefMap) (rates : List Rate)
    (hsome : net.negotiated_rates = some rates)
    (h : ∀ r ∈ rates, rateRefsOk ref_map r) :
    ∃ q2, print_record net q ref_map = .ok (q2, emitted_rows rates net ref_map) := by
  obtain ⟨q1, h1⟩ := print_record_rates_eq net ref_map rates q h
  exact ⟨q1.log_code net.billing_code net.billing_code_type,
    by simp [print_record, hsome, h1]⟩

/-! ## C7: the row emission rule -/

/-- C7: for one matching in_network element, `print_record` emits its
rows by the exact four-level nesting — for each surviving Rate in source
order, for each provider reference of that Rate in source order, for each
formatted provider tuple in the ref map's vector for that reference in
insertion order, for each Price of the Rate in source order, one row —
and each row renders as the provider tuple, the reference, the six
Network fields and the six Price fields, comma separated, in that column
order. -/
theorem row_emission_rule (net : Network) (q : Query) (ref_map : RefMap) (rates : List Rate)
    (hsome : net.negotiated_rates = some rates)
    (h : ∀ r ∈ rates, ∀ ref ∈ r.provider_references, refMapContains ref_map ref = true) :
    (∃ q2, print_record net q ref_map = .ok (q2,
      rates.flatMap (fun rate =>
        rate.provider_references.flatMap (fun ref =>
          ((refMapGet? ref_map ref).getD []).flatMap (fun prov =>
            rate.negotiated_prices.map (fun price => Line.row prov ref net price))))))
    ∧ (∀ prov ref price,
        (Line.row prov ref net price).render =
          prov ++ "," ++ toString ref ++ ","
            ++ (net.negotiation_arrangement ++ "," ++ net.name ++ "," ++ net.billing_code_type
                ++ "," ++ net.billing_code_type_version ++ "," ++ net.billing_code ++ ","
                ++ net.description)
            ++ ","
            ++ (price.negotiated_type ++ "," ++ price.negotiated_rate ++ ","
                ++ price.expiration_date ++ "," ++ price.service_code ++ ","
                ++ price.billing_class ++ "," ++ price.billing_code_modifier)
            ++ "\n") := by
  refine ⟨?_, fun prov ref price => rfl⟩
  exact print_record_eq net q ref_map rates hsome h

/-- C7 witness: the theorem applied to the concrete basic-test element:
one rate referencing group 11, one tuple, one price, a single row. -/
theorem row_emission_rule_witness :
    ∃ q2, print_record exNetwork exQuery' exQuery'.make_ref_map = .ok (q2,
      [Line.row "1701,ein,101" 11 exNetwork exPrice]) :=
  (row_emission_rule exNetwork exQuery' exQuery'.make_ref_map [exRate] rfl
    (by decide)).1

/-! ## C8: the empty-prices sentinel -/

/-- C8: a `negotiated_prices` array yielding zero Price records (here:
the empty array) makes `process_negotiated_prices` return the single
sentinel Price with all six fields the literal `"null"`, whose rendering
is six `null` columns; downstream, a retained Rate holding exactly that
sentinel still emits one row per (reference, provider tuple) with the
sentinel in the price columns. -/
theorem empty_prices_sentinel :
    (∀ fuel rest, process_negotiated_prices (fuel + 2) (.startArray :: .endArray :: rest)
        = .ok ([Price.new_null], rest))
    ∧ Price.new_null.print_out = "null,null,null,null,null,null"
    ∧ (∀ (net : Network) (q : Query) (ref_map : RefMap) (refs : List Nat),
        net.negotiated_rates
            = some [{ provider_references := refs, negotiated_prices := [Price.new_null] }] →
        (∀ ref ∈ refs, refMapContains ref_map ref = true) →
        ∃ q2, print_record net q ref_map = .ok (q2,
          refs.flatMap (fun ref =>
            ((refMapGet? ref_map ref).getD []).map (fun prov =>
              Line.row prov ref net Price.new_null)))) := by
  refine ⟨fun fuel rest => rfl, rfl, ?_⟩
  intro net q ref_map refs hsome h
  have hr : ∀ r ∈ [Rate.mk refs [Price.new_null]], rateRefsOk ref_map r := by
    intro r hrm
    simp only [List.mem_singleton] at hrm
    subst hrm
    exact h
  obtain ⟨q2, hq⟩ := print_record_eq net q ref_map _ hsome hr
  refine ⟨q2, ?_⟩
  rw [hq]
  simp [emitted_rows, flatMap_single]

/-- C8 witness: the empty prices array and the concrete downstream
emission with the sentinel price. -/
theorem empty_prices_sentinel_witness :
    process_negotiated_prices 2 [.startArray, .endArray] = .ok ([Price.new_null], [])
    ∧ ∃ q2, print_record exNetworkNull exQuery' exQuery'.make_ref_map = .ok (q2,
        [Line.row "1701,ein,101" 11 exNetworkNull Price.new_null]) :=
  ⟨empty_prices_sentinel.1 0 [],
   empty_prices_sentinel.2.2 exNetworkNull exQuery' exQuery'.make_ref_map [11] rfl
     (by decide)⟩

/-! ## C5: the npi match policy of the provider-groups walker -/

theorem npi_scan_loop_none (providers : List Provider) (npi : Nat) (i : Nat)
    (h : ∀ k, k < i → ∀ p, providers[k]? = some p → p.npi ≠ npi) :
    npi_scan_loop providers npi i = providers := by
  induction i with
  | zero => rfl
  | succ i ih =>
      have ih' := ih (fun k hk => h k (Nat.lt_succ_of_lt hk))
      cases hg : providers[i]? with
      | none => simpa [npi_scan_loop, hg] using ih'
      | some p =>
          have hne : p.npi ≠ npi := h i (Nat.lt_succ_self i) p hg
          simpa [npi_scan_loop, hg, hne] using ih'

theorem npi_scan_loop_found (providers : List Provider) (npi : Nat) (j : Nat) (p : Provider)
    (hj : providers[j]? = some p) (hp : p.npi = npi) :
    ∀ i, j < i →
      (∀ k, j < k → k < i → ∀ p2, providers[k]? = some p2 → p2.npi ≠ npi) →
      npi_scan_loop providers npi i =
        (if p.group_id = none ∧ p.tin_value = none then
          providers.set j { p with needs_gid := true, needs_tin := true }
        else
          providers ++ [{ Provider.new npi with needs_gid := true, needs_tin := true }]) := by
  intro i
  induction i with
  | zero => exact fun h => absurd h (Nat.not_lt_zero j)
  | succ i ih =>
      intro hji habove
      by_cases hij : j = i
      · subst hij
        cases hgid : p.group_id with
        | none =>
            cases htin : p.tin_value with
            | none => simp [npi_scan_loop, hj, hp, hgid, htin]
            | some tv => simp [npi_scan_loop, hj, hp, hgid, htin]
        | some g => simp [npi_scan_loop, hj, hp, hgid]
      · have hji' : j < i := Nat.lt_of_le_of_ne (Nat.le_of_lt_succ hji) hij
        have hrec := ih hji' (fun k hk1 hk2 => habove k hk1 (Nat.lt_succ_of_lt hk2))
        cases hg : providers[i]? with
        | none => simpa [npi_scan_loop, hg] using hrec
        | some p2 =>
            have hne : p2.npi ≠ npi := habove i hji' (Nat.lt_succ_self i) p2 hg
            simpa [npi_scan_loop, hg, hne] using hrec

/-- C5: in the provider-groups walker, a parsed npi that is in the npi
set makes the Providers vector step to `handle_npi` of it, and an npi not
in the set leaves the vector unchanged; `handle_npi` scans the vector
from the end backward to the first record with that npi — if that record
has both `group_id` and `tin_value` unset its `needs_gid`/`needs_tin`
flags are set, otherwise a fresh flagged Provider with that npi is
appended — and a vector with no record for the npi is unchanged. -/
theorem npi_match_policy (npi_set : List Nat) (fuel : Nat) (s : String)
    (rest : List JsonEvent) (q : Query) (t_type t_value : Option String) (cb sq : Int)
    (curr_npi : Nat) (hs : parseU64 s = some curr_npi) :
    (process_provider_groups_loop npi_set (fuel + 1) (.numVal s :: rest) q .Npi t_type t_value cb sq
      = process_provider_groups_loop npi_set fuel rest
          (if npi_set.contains curr_npi then
            { q with providers := handle_npi q.providers curr_npi }
          else q) .Npi t_type t_value cb sq)
    ∧ ((∀ p ∈ q.providers, p.npi ≠ curr_npi) → handle_npi q.providers curr_npi = q.providers)
    ∧ (∀ j p, q.providers[j]? = some p → p.npi = curr_npi →
        (∀ k p2, j < k → q.providers[k]? = some p2 → p2.npi ≠ curr_npi) →
        handle_npi q.providers curr_npi =
          if p.group_id = none ∧ p.tin_value = none then
            q.providers.set j { p with needs_gid := true, needs_tin := true }
          else
            q.providers ++ [{ Provider.new curr_npi with needs_gid := true, needs_tin := true }]) := by
  refine ⟨?_, ?_, ?_⟩
  · cases hc : npi_set.contains curr_npi with
    | false =>
        have hm : curr_npi ∉ npi_set := by simpa using hc
        simp [process_provider_groups_loop, hs, hc, hm]
    | true =>
        have hm : curr_npi ∈ npi_set := by simpa using hc
        simp [process_provider_groups_loop, hs, hc, hm]
  · intro h
    apply npi_scan_loop_none
    intro k _ p hg
    exact h p (List.getElem?_mem hg)
  · intro j p hj hp habove
    have hjlen : j < q.providers.length := by
      by_contra hle
      rw [List.getElem?_eq_none_iff.mpr (Nat.le_of_not_lt hle)] at hj
      cases hj
    exact npi_scan_loop_found q.providers curr_npi j p hj hp q.providers.length hjlen
      (fun k hk1 _ p2 hg => habove k p2 hk1 hg)

/-- C5 witness: npi 43 hits the second record of `c4Query`'s vector,
which has both slots unset, so its flags are set in place; and the walker
step rewrites the Query accordingly. -/
theorem npi_match_policy_witness :
    (process_provider_groups_loop [42, 43] 6 (.numVal "43" :: [.endArray]) c4Query .Npi none none 1 1
      = process_provider_groups_loop [42, 43] 5 [.endArray]
          { c4Query with providers := handle_npi c4Query.providers 43 } .Npi none none 1 1)
    ∧ handle_npi c4Query.providers 43
        = c4Query.providers.set 1 { Provider.new 43 with needs_gid := true, needs_tin := true } := by
  have h := npi_match_policy [42, 43] 5 "43" [.endArray] c4Query none none 1 1 43 rfl
  refine ⟨h.1, ?_⟩
  have h3 := h.2.2 1 (Provider.new 43) rfl rfl ?_
  · exact h3
  · intro k p2 hk hg
    rw [List.getElem?_eq_none_iff.mpr (by simp [c4Query]; omega)] at hg
    cases hg

/-! ## C1: a missing `provider_group_id` aborts the run before
in_network

`run` propagates the `NonFatalError` of `process_provider_refs` with `?`
(asa.rs line 1292) immediately after the provider_references walk
returns, so on `c1Events` — whose in_network element matches the query
and would emit a row — the driver never reaches `in_network` and the
primary output stays empty, while the claim (and §6/§7 of the spec) says
the run completes the full traversal, including in_network and row
emission, exiting non-zero only at the driver's return. -/

/-- C1 (evaluation at the failing input): on a file whose first
provider_references element lacks `provider_group_id`, `run` returns the
NonFatalError itself — the traversal of provider_references completes,
but the run is aborted right after it: no in_network processing happens
and not a single line (not even the header) is written to the primary
output. -/
theorem missing_gid_aborts_run :
    (run 100 c1Events c1Query).err
        = some (.nonFatal "Non fatal error in asa::process_provider_refs")
    ∧ (run 100 c1Events c1Query).out = [] :=
  ⟨rfl, rfl⟩

/-! ## C4: the `pg_id` slot is not per-element

`pg_id` is initialised once at the top of `process_provider_refs`
(asa.rs line 1088) and never reset between elements of the
provider_references array, so an element without `provider_group_id`
silently reuses the id of the previous element: no non-fatal error is
recorded and the matched Providers are filled with the stale group id,
while the claim says the slot is per-element, absence is recorded as a
non-fatal error, and a Provider is never filled with a carried-over
group id. -/

/-- C4 (evaluation at the failing input): on `c4Prefs` — element one has
`provider_group_id` 1 with npi 42, element two has npi 43 and *no*
`provider_group_id` — the walk returns `ok` (no non-fatal error was
recorded for the absent id) and the npi-43 Provider is filled with group
id 1, carried over from element one. -/
theorem stale_group_id_carryover :
    process_provider_refs 100 c4Prefs c4Query
      = .ok (Query.mk
          [Provider.mk 42 (some 1) (some "ein") (some "7") false false false,
           Provider.mk 43 (some 1) (some "ein") (some "8") false false false]
          [], []) :=
  rfl

/-! ## C3 and C10: invariants of the in-network walk -/

theorem process_negotiated_rates_loop_refs (ref_map : RefMap) (fuel0 : Nat) :
    ∀ fuel evs cb sq rates rate rates' rest,
      (∀ r ∈ rates, rateRefsOk ref_map r) → rateRefsOk ref_map rate →
      process_negotiated_rates_loop ref_map fuel0 fuel evs cb sq rates rate
        = .ok (some rates', rest) →
      ∀ r ∈ rates', rateRefsOk ref_map r := by
  intro fuel
  induction fuel with
  | zero =>
      intro evs cb sq rates rate rates' rest _ _ h
      simp [process_negotiated_rates_loop] at h
  | succ fuel ih =>
      intro evs cb sq rates rate rates' rest hrates hrate h
      match evs with
      | [] => simp [process_negotiated_rates_loop] at h
      | ev :: rest0 =>
        cases ev with
        | startObject =>
            exact ih rest0 _ _ _ _ _ _ hrates hrate
              (by simpa [process_negotiated_rates_loop] using h)
        | endObject =>
            simp only [process_negotiated_rates_loop] at h
            split at h
            · simp at h
            · split at h
              · refine ih _ _ _ _ _ _ _ ?_ ?_ h
                · intro r hr
                  split at hr
                  · rcases List.mem_append.mp hr with hr | hr
                    · exact hrates r hr
                    · rcases List.mem_singleton.mp hr with rfl
                      exact hrate
                  · exact hrates r hr
                · intro ref href
                  simp [Rate.clear_fields, Rate.new] at href
              · exact ih _ _ _ _ _ _ _ hrates hrate h
        | startArray =>
            exact ih rest0 _ _ _ _ _ _ hrates hrate
              (by simpa [process_negotiated_rates_loop] using h)
        | endArray =>
            simp only [process_negotiated_rates_loop] at h
            split at h
            · simp at h
            · split at h
              · split at h
                · simp at h
                · rw [Except.ok.injEq, Prod.mk.injEq] at h
                  obtain ⟨h1, _⟩ := h
                  injection h1 with h1
                  subst h1
                  exact hrates
              · split at h
                · cases hff : ff_to_next_obj rest0 _ _ with
                  | ok t =>
                      rw [hff] at h
                      obtain ⟨cb2, sq2, rest2⟩ := t
                      exact ih _ _ _ _ _ _ _ hrates hrate h
                  | error e => rw [hff] at h; simp at h
                · exact ih _ _ _ _ _ _ _ hrates hrate h
        | objectKey k =>
            simp only [process_negotiated_rates_loop] at h
            split at h
            · exact ih _ _ _ _ _ _ _ hrates hrate h
            · split at h
              · cases hp : process_negotiated_prices fuel0 rest0 with
                | ok t =>
                    rw [hp] at h
                    obtain ⟨prices, rest'⟩ := t
                    refine ih _ _ _ _ _ _ _ hrates ?_ h
                    intro ref href
                    exact hrate ref href
                | error e => rw [hp] at h; simp at h
              · cases hb : bypass_key rest0 with
                | ok rest' =>
                    rw [hb] at h
                    exact ih _ _ _ _ _ _ _ hrates hrate h
                | error e => rw [hb] at h; simp at h
        | strVal s =>
            exact ih rest0 _ _ _ _ _ _ hrates hrate
              (by simpa [process_negotiated_rates_loop] using h)
        | numVal n =>
            simp only [process_negotiated_rates_loop] at h
            split at h
            · simp at h
            · split at h
              · refine ih _ _ _ _ _ _ _ hrates ?_ h
                intro ref href
                rcases List.mem_append.mp href with href | href
                · exact hrate ref href
                · rcases List.mem_singleton.mp href with rfl
                  assumption
              · exact ih _ _ _ _ _ _ _ hrates hrate h
        | boolVal b =>
            exact ih rest0 _ _ _ _ _ _ hrates hrate
              (by simpa [process_negotiated_rates_loop] using h)
        | nullVal =>
            exact ih rest0 _ _ _ _ _ _ hrates hrate
              (by simpa [process_negotiated_rates_loop] using h)
        | eof => simp [process_negotiated_rates_loop] at h

theorem ff_to_next_obj_no_unwrap :
    ∀ (evs : List JsonEvent) (cb sq : Nat) (s : String),
      ff_to_next_obj evs cb sq ≠ .error (.unwrapFail s) := by
  intro evs
  induction evs with
  | nil => intro cb sq s h; simp [ff_to_next_obj] at h
  | cons ev rest ih =>
      intro cb sq s h
      cases ev <;> simp only [ff_to_next_obj] at h <;>
        first
          | exact ih _ _ _ h
          | (simp at h; done)
          | (split at h <;>
              first
                | (simp at h; done)
                | exact ih _ _ _ h
                | (split at h <;> first | (simp at h; done) | exact ih _ _ _ h))

theorem skip_array_no_unwrap :
    ∀ (evs : List JsonEvent) (sq : Nat) (s : String),
      skip_array evs sq ≠ .error (.unwrapFail s) := by
  intro evs
  induction evs with
  | nil => intro sq s h; simp [skip_array] at h
  | cons ev rest ih =>
      intro sq s h
      cases ev <;> simp only [skip_array] at h <;>
        first
          | exact ih _ _ h
          | (simp at h; done)
          | (split at h <;>
              first
                | (simp at h; done)
                | exact ih _ _ h
                | (split at h <;> first | (simp at h; done) | exact ih _ _ h))

theorem bypass_key_no_unwrap (evs : List JsonEvent) (s : String) :
    bypass_key evs ≠ .error (.unwrapFail s) := by
  intro h
  match evs with
  | [] => simp [bypass_key] at h
  | ev :: rest =>
    cases ev <;> simp only [bypass_key] at h <;> try simp at h
    · split at h
      · simp at h
      · rename_i e heq
        rw [Except.error.injEq] at h
        subst h
        exact ff_to_next_obj_no_unwrap rest 1 0 s heq
    · exact skip_array_no_unwrap rest 1 s h

theorem process_negotiated_prices_loop_no_unwrap :
    ∀ (fuel : Nat) (evs : List JsonEvent) (st : PriceKey) (cb sq : Int)
      (prices : List Price) (price : Price) (s : String),
      process_negotiated_prices_loop fuel evs st cb sq prices price
        ≠ .error (.unwrapFail s) := by
  intro fuel
  induction fuel with
  | zero => intro evs st cb sq prices price s h; simp [process_negotiated_prices_loop] at h
  | succ fuel ih =>
      intro evs st cb sq prices price s h
      match evs with
      | [] => simp [process_negotiated_prices_loop] at h
      | ev :: rest =>
        cases ev <;> simp only [process_negotiated_prices_loop] at h
        case objectKey k =>
          split at h
          · exact ih _ _ _ _ _ _ _ h
          · split at h
            · exact ih _ _ _ _ _ _ _ h
            · split at h
              · exact ih _ _ _ _ _ _ _ h
              · split at h
                · exact ih _ _ _ _ _ _ _ h
                · split at h
                  · exact ih _ _ _ _ _ _ _ h
                  · split at h
                    · exact ih _ _ _ _ _ _ _ h
                    · split at h
                      · rename_i rest' heq
                        exact ih _ _ _ _ _ _ _ h
                      · rename_i e heq
                        rw [Except.error.injEq] at h
                        subst h
                        exact bypass_key_no_unwrap rest s heq
        case strVal v =>
          split at h <;> first | (simp at h; done) | exact ih _ _ _ _ _ _ _ h
        all_goals
          first
            | exact ih _ _ _ _ _ _ _ h
            | (simp at h; done)
            | (split at h <;>
                first
                  | (simp at h; done)
                  | exact ih _ _ _ _ _ _ _ h
                  | (split at h <;> first | (simp at h; done) | exact ih _ _ _ _ _ _ _ h))

theorem emitted_rows_lineOk (codeset : List String) (ref_map : RefMap) (rates : List Rate)
    (net : Network)
    (hbc : codeset.contains net.billing_code = true ∨ codeset.contains "*" = true)
    (hrefs : ∀ r ∈ rates, rateRefsOk ref_map r) :
    ∀ l ∈ emitted_rows rates net ref_map, lineOk codeset ref_map l := by
  intro l hl
  simp only [emitted_rows, List.mem_flatMap, List.mem_map] at hl
  obtain ⟨rate, hrate, ref, href, prov, _, price, _, rfl⟩ := hl
  exact ⟨hbc, hrefs rate hrate ref href⟩

theorem process_negotiated_prices_no_unwrap (fuel : Nat) (evs : List JsonEvent) (s : String) :
    process_negotiated_prices fuel evs ≠ .error (.unwrapFail s) := by
  intro h
  unfold process_negotiated_prices at h
  split at h
  all_goals
    first
      | (split at h <;> simp at h)
      | (simp at h; done)
      | (rename_i e heq
         rw [Except.error.injEq] at h
         subst h
         exact process_negotiated_prices_loop_no_unwrap _ _ _ _ _ _ _ s heq)

theorem process_negotiated_rates_loop_no_unwrap (ref_map : RefMap) (fuel0 : Nat) :
    ∀ (fuel : Nat) (evs : List JsonEvent) (cb sq : Nat) (rates : List Rate) (rate : Rate)
      (s : String),
      process_negotiated_rates_loop ref_map fuel0 fuel evs cb sq rates rate
        ≠ .error (.unwrapFail s) := by
  intro fuel
  induction fuel with
  | zero => intro evs cb sq rates rate s h; simp [process_negotiated_rates_loop] at h
  | succ fuel ih =>
      intro evs cb sq rates rate s h
      match evs with
      | [] => simp [process_negotiated_rates_loop] at h
      | ev :: rest =>
        cases ev <;> simp only [process_negotiated_rates_loop] at h
        case endArray =>
          split at h
          · simp at h
          · split at h
            · split at h <;> simp at h
            · split at h
              · split at h
                all_goals
                  first
                    | exact ih _ _ _ _ _ _ h
                    | (simp at h; done)
                    | (rename_i e heq
                       rw [Except.error.injEq] at h
                       subst h
                       exact ff_to_next_obj_no_unwrap _ _ _ _ heq)
              · exact ih _ _ _ _ _ _ h
        case objectKey k =>
          split at h
          · exact ih _ _ _ _ _ _ h
          · split at h
            · split at h
              all_goals
                first
                  | exact ih _ _ _ _ _ _ h
                  | (simp at h; done)
                  | (rename_i e heq
                     rw [Except.error.injEq] at h
                     subst h
                     exact process_negotiated_prices_no_unwrap _ _ _ heq)
            · split at h
              all_goals
                first
                  | exact ih _ _ _ _ _ _ h
                  | (simp at h; done)
                  | (rename_i e heq
                     rw [Except.error.injEq] at h
                     subst h
                     exact bypass_key_no_unwrap _ _ heq)
        all_goals
          first
            | exact ih _ _ _ _ _ _ h
            | (simp at h; done)
            | (split at h <;>
                first
                  | (simp at h; done)
                  | exact ih _ _ _ _ _ _ h
                  | (split at h <;>
                      first
                        | (simp at h; done)
                        | exact ih _ _ _ _ _ _ h
                        | (split at h <;> first | (simp at h; done) | exact ih _ _ _ _ _ _ h)))

theorem process_in_network_loop_inv (codeset : List String) (ref_map : RefMap) (fuel0 : Nat) :
    ∀ fuel evs q st hw network cb sq out,
      networkOk codeset ref_map network →
      (∀ l ∈ out, lineOk codeset ref_map l) →
      inNetResOk codeset ref_map
        (process_in_network_loop codeset ref_map fuel0 fuel evs q st hw network cb sq out) := by
  intro fuel
  induction fuel with
  | zero =>
      intro evs q st hw network cb sq out _ _
      simp [process_in_network_loop, inNetResOk]
  | succ fuel ih =>
      intro evs q st hw network cb sq out hnet hout
      have hnew : networkOk codeset ref_map Network.new :=
        ⟨fun hc => absurd rfl hc, fun rates hr => by cases hr⟩
      match evs with
      | [] => simp [process_in_network_loop, inNetResOk]
      | ev :: rest =>
        cases ev
        case startObject =>
            simp only [process_in_network_loop]
            exact ih _ _ _ _ _ _ _ _ hnet hout
        case endObject =>
            simp only [process_in_network_loop]
            split
            · simp [inNetResOk]
            · split
              · rename_i cb0 cb' hguard
                rw [Bool.and_eq_true, Bool.and_eq_true] at hguard
                obtain ⟨⟨hcb0, hbc0⟩, h3⟩ := hguard
                have hbc : network.billing_code ≠ "" := by simpa using hbc0
                obtain ⟨rates, hsome⟩ := Option.isSome_iff_exists.mp h3
                have hrefs : ∀ r ∈ rates, rateRefsOk ref_map r := hnet.2 rates hsome
                obtain ⟨q2, hpr⟩ := print_record_eq network.push_defaults q ref_map rates
                  hsome hrefs
                have hrows : ∀ l ∈ emitted_rows rates network.push_defaults ref_map,
                    lineOk codeset ref_map l :=
                  emitted_rows_lineOk codeset ref_map rates network.push_defaults
                    (hnet.1 hbc) hrefs
                cases hw with
                | false =>
                    split
                    · rename_i q' lines heq
                      rw [hpr] at heq
                      rw [Except.ok.injEq, Prod.mk.injEq] at heq
                      obtain ⟨rfl, rfl⟩ := heq
                      refine ih _ _ _ _ _ _ _ _ hnew ?_
                      intro l hl
                      rcases List.mem_append.mp hl with hl | hl
                      · rcases List.mem_append.mp hl with hl | hl
                        · exact hout l hl
                        · rcases List.mem_singleton.mp hl with rfl
                          exact trivial
                      · exact hrows l hl
                    · rename_i e heq
                      rw [hpr] at heq
                      simp at heq
                | true =>
                    split
                    · rename_i q' lines heq
                      rw [hpr] at heq
                      rw [Except.ok.injEq, Prod.mk.injEq] at heq
                      obtain ⟨rfl, rfl⟩ := heq
                      refine ih _ _ _ _ _ _ _ _ hnew ?_
                      intro l hl
                      rcases List.mem_append.mp hl with hl | hl
                      · exact hout l hl
                      · exact hrows l hl
                    · rename_i e heq
                      rw [hpr] at heq
                      simp at heq
              · exact ih _ _ _ _ _ _ _ _ hnew hout
        case startArray =>
            simp only [process_in_network_loop]
            exact ih _ _ _ _ _ _ _ _ hnet hout
        case endArray =>
            simp only [process_in_network_loop]
            split
            · simp [inNetResOk]
            · split
              · simpa [inNetResOk] using hout
              · exact ih _ _ _ _ _ _ _ _ hnet hout
        case objectKey k =>
            simp only [process_in_network_loop]
            split
            · exact ih _ _ _ _ _ _ _ _ hnet hout
            · split
              · exact ih _ _ _ _ _ _ _ _ hnet hout
              · split
                · exact ih _ _ _ _ _ _ _ _ hnet hout
                · split
                  · exact ih _ _ _ _ _ _ _ _ hnet hout
                  · split
                    · exact ih _ _ _ _ _ _ _ _ hnet hout
                    · split
                      · exact ih _ _ _ _ _ _ _ _ hnet hout
                      · split
                        · -- negotiated_rates key
                          split
                          · rename_i rates rest' heq
                            refine ih _ _ _ _ _ _ _ _ ⟨hnet.1, ?_⟩ hout
                            intro rates2 hr2
                            have : some rates = some rates2 := hr2
                            obtain rfl := (Option.some.injEq _ _ ▸ this : rates = rates2)
                            exact process_negotiated_rates_loop_refs ref_map fuel0 fuel0 _ _ _
                              _ _ _ _ (fun r hr => by cases hr)
                              (fun ref hr => by simp [Rate.new] at hr) heq
                          · -- rates returned none: clear and fast-forward
                            split
                            all_goals
                              first
                                | exact ih _ _ _ _ _ _ _ _ hnew hout
                                | (rename_i e heq2
                                   simp only [inNetResOk]
                                   intro s hs
                                   subst hs
                                   exact ff_to_next_obj_no_unwrap _ _ _ _ heq2)
                          · rename_i e heq
                            simp only [inNetResOk]
                            intro s hs
                            subst hs
                            revert heq
                            unfold process_negotiated_rates
                            exact process_negotiated_rates_loop_no_unwrap ref_map fuel0
                              fuel0 _ _ _ _ _ s
                        · -- unsupported key: bypass
                          split
                          all_goals
                            first
                              | exact ih _ _ _ _ _ _ _ _ hnet hout
                              | (rename_i e heq
                                 simp only [inNetResOk]
                                 intro s hs
                                 subst hs
                                 exact bypass_key_no_unwrap _ _ heq)
        case strVal v =>
            simp only [process_in_network_loop]
            split
            · exact ih _ _ _ _ _ _ _ _ ⟨hnet.1, hnet.2⟩ hout
            · exact ih _ _ _ _ _ _ _ _ ⟨hnet.1, hnet.2⟩ hout
            · exact ih _ _ _ _ _ _ _ _ ⟨hnet.1, hnet.2⟩ hout
            · exact ih _ _ _ _ _ _ _ _ ⟨hnet.1, hnet.2⟩ hout
            · -- billing_code capture
              split
              · -- filter failed: clear and fast-forward
                split
                all_goals
                  first
                    | exact ih _ _ _ _ _ _ _ _ hnew hout
                    | (rename_i e heq
                       simp only [inNetResOk]
                       intro s hs
                       subst hs
                       exact ff_to_next_obj_no_unwrap _ _ _ _ heq)
              · -- filter passed
                rename_i hcond
                have hdisj : codeset.contains (asciiUpper (network.billing_code ++ v)) = true
                    ∨ codeset.contains "*" = true := by
                  rcases hb1 : codeset.contains (asciiUpper (network.billing_code ++ v)) with _ | _
                  · rcases hb2 : codeset.contains "*" with _ | _
                    · exact absurd (by rw [hb1, hb2]; rfl) hcond
                    · exact Or.inr rfl
                  · exact Or.inl rfl
                exact ih _ _ _ _ _ _ _ _ ⟨fun _ => hdisj, hnet.2⟩ hout
            · exact ih _ _ _ _ _ _ _ _ ⟨hnet.1, hnet.2⟩ hout
            · simp [inNetResOk]
        case numVal n =>
            simp only [process_in_network_loop]
            exact ih _ _ _ _ _ _ _ _ hnet hout
        case boolVal b =>
            simp only [process_in_network_loop]
            exact ih _ _ _ _ _ _ _ _ hnet hout
        case nullVal =>
            simp only [process_in_network_loop]
            exact ih _ _ _ _ _ _ _ _ hnet hout
        case eof =>
            simp only [process_in_network_loop]
            exact ih _ _ _ _ _ _ _ _ hnet hout

/-- C3: filter soundness.  Every data row emitted by the in-network
processor carries a billing code (uppercased in place on capture) that is
a member of the query code set or matched because the code set contains
the wildcard `*`, and a provider reference that is a key of the Ref map;
and the rates walker discards provider reference numbers absent from the
Ref map before a Rate is retained: every retained Rate's references are
all Ref-map keys. -/
theorem filter_soundness (fuel : Nat) (events : List JsonEvent) (q : Query)
    (q' : Query) (lines : List Line) (rest : List JsonEvent)
    (h : process_in_network fuel events q = .ok (q', lines, rest)) :
    (∀ prov ref net price, Line.row prov ref net price ∈ lines →
      (q.make_code_set.contains net.billing_code = true
        ∨ q.make_code_set.contains "*" = true)
      ∧ refMapContains q.make_ref_map ref = true)
    ∧ (∀ evs rates rest2,
        process_negotiated_rates fuel q.make_ref_map evs = .ok (some rates, rest2) →
        ∀ r ∈ rates, ∀ ref ∈ r.provider_references,
          refMapContains q.make_ref_map ref = true) := by
  constructor
  · intro prov ref net price hmem
    have hm := process_in_network_loop_inv q.make_code_set q.make_ref_map fuel fuel events q
      .undefined false Network.new 0 0 []
      ⟨fun hc => absurd rfl hc, fun rates hr => by cases hr⟩
      (by intro l hl; cases hl)
    unfold process_in_network at h
    rw [h] at hm
    simp only [inNetResOk] at hm
    exact hm _ hmem
  · intro evs rates rest2 hr r hrmem ref hrefmem
    unfold process_negotiated_rates at hr
    exact process_negotiated_rates_loop_refs q.make_ref_map fuel fuel evs 0 0 [] Rate.new
      rates rest2 (fun r2 h2 => by cases h2)
      (fun ref2 h2 => by simp [Rate.new] at h2) hr r hrmem ref hrefmem

/-- C3 witness: the basic-test element's single row, with its billing
code `CODE 1` admitted by the wildcard-free code set and its reference 11
a key of the ref map. -/
theorem filter_soundness_witness :
    (exQuery'.make_code_set.contains exNetwork.billing_code = true
      ∨ exQuery'.make_code_set.contains "*" = true)
    ∧ refMapContains exQuery'.make_ref_map 11 = true :=
  (filter_soundness 100 exNet exQuery' exQuery2 exRows [] rfl).1
    "1701,ein,101" 11 exNetwork exPrice (by simp [exRows])

/-- C10: the two unwraps in `print_record` are safe.  On every event
sequence and Query, the in-network processor never fails with either of
`print_record`'s unwrap panics: `print_record` is invoked only under the
object-end guard that checks `negotiated_rates.isSome`, and every
reference stored in a retained Rate was admitted only if it keys the Ref
map, so `network.negotiated_rates.as_ref().unwrap()` and
`ref_map.get(reference).unwrap()` never panic on any input that reaches
emission. -/
theorem print_record_unwraps_safe (fuel : Nat) (events : List JsonEvent) (q : Query)
    (s : String) :
    process_in_network fuel events q ≠ .error (.unwrapFail s) := by
  intro h
  have hm := process_in_network_loop_inv q.make_code_set q.make_ref_map fuel fuel events q
    .undefined false Network.new 0 0 []
    ⟨fun hc => absurd rfl hc, fun rates hr => by cases hr⟩
    (by intro l hl; cases hl)
  unfold process_in_network at h
  rw [h] at hm
  simp only [inNetResOk] at hm
  exact hm s rfl

/-! ## C2: order reversal equivalence

The hypotheses say exactly that the file is one the processors consume
without a fatal error: each sub-processor, started at its array block,
consumes precisely that block (returning whatever events follow it
untouched) and yields a result that does not depend on what follows.  The
conclusion compares the rendered primary output of `run` on the file and
on the file with the two top-level arrays swapped, for any driver fuel of
at least nine (eight driver steps occur on the reversed file, one per
top-level event across the two passes). -/

/-- C2: for an input file whose outer object contains both top-level
arrays, swapping the positions of `provider_references` and `in_network`
produces byte-identical primary CSV output: when `in_network` is met
first it is skipped (`skip_array`), the reset flag is set, and after the
document object ends the driver re-opens the source and reruns the loop —
on that single second pass `in_network` is processed against the Query
populated by pass one, so the same rows are written, and no further reset
occurs. -/
theorem order_reversal_equivalence
    (P N : List JsonEvent) (q q' q2 q3 : Query) (rows : List Line) (k : Nat)
    (hP : ∀ rest, process_provider_refs (k + 9) (P ++ rest) q = .ok (q', rest))
    (hskip : ∀ rest, skip_array (N ++ rest) 0 = .ok rest)
    (hN : ∀ rest, process_in_network (k + 9) (N ++ rest) q' = .ok (q2, rows, rest))
    (hP2 : ∀ rest, process_provider_refs (k + 9) (P ++ rest) q2 = .ok (q3, rest)) :
    render_out (run (k + 9) (fwd_events P N) q).out
      = render_out (run (k + 9) (rev_events P N) q).out := by
  unfold run fwd_events rev_events
  cases hstat : q'.stat_providers with
  | false => simp [run_loop, hP, hskip, hstat]
  | true =>
      cases hstat3 : q3.stat_providers with
      | false => simp [run_loop, hP, hskip, hN, hP2, hstat, hstat3]
      | true => simp [run_loop, hP, hskip, hN, hP2, hstat, hstat3]

/-- C2 witness: the repository's own basic test pair — the same
provider_references and in_network contents in both orders — rendered
byte-identically. -/
theorem order_reversal_equivalence_witness :
    render_out (run 100 (fwd_events exPrefs exNet) exQuery).out
      = render_out (run 100 (rev_events exPrefs exNet) exQuery).out :=
  order_reversal_equivalence exPrefs exNet exQuery exQuery' exQuery2 exQuery3 exRows 91
    (fun rest => rfl) (fun rest => rfl) (fun rest => rfl) (fun rest => rfl)

end Mrfy
